import Mathlib

/-!
Verification development for the explicit-dynamics time-integration engine
(pylith): a shallow embedding of the `ExplicitLumped` formulation
(`pylith/problems/ExplicitLumped.py`) and of the Maxwell plane-strain
material data generator
(`unittests/libtests/materials/data/MaxwellPlaneStrainElastic.py`),
with theorems settling the spec's claims about them.

Field buffers are embedded as lists of rationals (one entry per degree of
freedom); the material arithmetic is embedded over an arbitrary linear
ordered field so that the `vp = vs * sqrt 3` derivation can be read over
the reals (exact arithmetic) while everything else stays decidable over
the rationals.
-/

namespace Pylith

/-! ## Maxwell plane-strain material (MaxwellPlaneStrainElastic.py) -/

/-- A plane-strain rank-two symmetric tensor stored as the 3-vector
`[xx, yy, xy]`, the layout used throughout the material data generator
(`tensorSize = 3`). -/
structure Vec3 (K : Type) where
  xx : K
  yy : K
  xy : K
deriving DecidableEq

/-- The six independent plane-strain elastic constants, in the order the
source stores them: `[C1111, C1122, C1112, C2222, C2212, C1212]`
(`numElasticConsts = 6`). -/
structure ElasticConsts (K : Type) where
  c1111 : K
  c1122 : K
  c1112 : K
  c2222 : K
  c2212 : K
  c1212 : K
deriving DecidableEq

variable {K : Type} [LinearOrderedField K]

/-- Embedding of `MaxwellPlaneStrainElastic._calcStress`: from a strain
vector, shear modulus `mu`, Lame parameter `lambda`, initial stress and
initial strain, compute the elastic-constant vector, the stress vector
(the 3x3 symmetric matrix product expanded row by row, exactly as
`numpy.dot(elastic, strain - initialStrain) + initialStress` computes it),
and the 7-component updated state variables
(total strain followed by viscous strain). -/
def calcStress (strainV : Vec3 K) (muV lambdaV : K)
    (initialStressV initialStrainV : Vec3 K) :
    ElasticConsts K × Vec3 K × List K :=
  let C1111 := lambdaV + 2 * muV
  let C1122 := lambdaV
  let C1112 : K := 0
  let C2222 := lambdaV + 2 * muV
  let C2212 : K := 0
  let C1212 := 2 * muV
  let elasticConsts : ElasticConsts K := ⟨C1111, C1122, C1112, C2222, C2212, C1212⟩
  let e := strainV
  let e0 := initialStrainV
  let s0 := initialStressV
  let stress : Vec3 K :=
    ⟨C1111 * (e.xx - e0.xx) + C1122 * (e.yy - e0.yy) + C1112 * (e.xy - e0.xy) + s0.xx,
     C1122 * (e.xx - e0.xx) + C2222 * (e.yy - e0.yy) + C2212 * (e.xy - e0.xy) + s0.yy,
     C1112 * (e.xx - e0.xx) + C2212 * (e.yy - e0.yy) + C1212 * (e.xy - e0.xy) + s0.xy⟩
  let meanStrain := (e.xx + e.yy) / 3
  let viscousStrain : List K := [e.xx - meanStrain, e.yy - meanStrain, -meanStrain, e.xy]
  let stateVarsUpdated : List K := [e.xx, e.yy, e.xy] ++ viscousStrain
  (elasticConsts, stress, stateVarsUpdated)

/-- The symmetric 3x3 matrix the source builds from the six elastic
constants (`elastic = numpy.array([[C1111, C1122, C1112], [C1122, C2222,
C2212], [C1112, C2212, C1212]])`). -/
def elasticMatrix (ec : ElasticConsts K) : Matrix (Fin 3) (Fin 3) K :=
  Matrix.of
    ![![ec.c1111, ec.c1122, ec.c1112],
      ![ec.c1122, ec.c2222, ec.c2212],
      ![ec.c1112, ec.c2212, ec.c1212]]

/-- View a plane-strain 3-vector as a function on `Fin 3`, for the
matrix-vector product comparison. -/
def vecOf (v : Vec3 K) : Fin 3 → K := ![v.xx, v.yy, v.xy]

/-- Per-material database record, holding the raw property values
`density, vs, vp, viscosity` as read from the property database
(`dbPropertyValues`). -/
structure MatDB (K : Type) where
  density : K
  vs : K
  vp : K
  viscosity : K
deriving DecidableEq

/-- Derived shear modulus, `mu = vs * vs * density` (lines `muA = vsA*vsA*densityA`). -/
def muOf (m : MatDB K) : K := m.vs * m.vs * m.density

/-- Derived Maxwell relaxation time, `maxwellTime = viscosity / mu`. -/
def maxwellTimeOf (m : MatDB K) : K := m.viscosity / muOf m

/-- Embedding of `self.dtStableImplicit = 0.2*min(maxwellTimeA, maxwellTimeB)`
for the two materials of the data generator. -/
def dtStableImplicit (a b : MatDB K) : K :=
  (0.2 : K) * min (maxwellTimeOf a) (maxwellTimeOf b)

/-- The full derivation pipeline of `__init__` for one material: derive
`mu`, `lambda = vp*vp*density - 2*mu` and the relaxation time from the
database values, then evaluate `_calcStress`; returns the
(elastic constants, stress, updated state) triple and the relaxation
time. -/
def materialResponse (m : MatDB K) (strain s0 e0 : Vec3 K) :
    (ElasticConsts K × Vec3 K × List K) × K :=
  let mu := m.vs * m.vs * m.density
  let lam := m.vp * m.vp * m.density - 2 * mu
  let maxwellTime := m.viscosity / mu
  (calcStress strain mu lam s0 e0, maxwellTime)

/-! ## ExplicitLumped formulation (pylith/problems/ExplicitLumped.py)

Field buffers (`disp(t)`, `disp(t-dt)`, `dispIncr(t->t+dt)`, `residual`,
the lumped `jacobian`) are lists of rationals, one entry per degree of
freedom. Integrators and constraints are opaque collaborators: each
carries a payload of an abstract type together with its
solve-for-increment flag, and the operations the formulation calls on
them (`timeStep`, `needNewJacobian`, the Jacobian/residual assembly
contributions, `setFieldIncr`) are supplied as an operations record. -/

/-- A field buffer over the discretization: one rational per degree of
freedom. -/
abbrev MeshField := List ℚ

/-- `Field.zero()`: overwrite every degree of freedom with zero, keeping
the layout. -/
def zeroField (f : MeshField) : MeshField := f.map fun _ => 0

/-- An element-level integrator: an opaque payload plus the
solve-for-increment flag toggled by `useSolnIncr`. -/
structure Integrator (σ : Type) where
  payload : σ
  solnIncr : Bool
deriving DecidableEq

/-- The integrator capability consumed by the formulation:
`timeStep(dt)` advances internal time-step-dependent state,
`needNewJacobian()` reports a stale tangent, and the two contribution
maps give the integrator's additive Jacobian / residual contributions
(the residual contribution may read the current and previous
displacement fields). -/
structure IntegratorOps (σ : Type) where
  timeStep : σ → ℚ → σ
  needNewJacobian : σ → Bool
  jacobianContrib : σ → MeshField
  residualContrib : σ → MeshField → MeshField → MeshField

/-- A boundary-condition constraint: an opaque payload plus the
solve-for-increment flag toggled by `useSolnIncr`. -/
structure Constraint (γ : Type) where
  payload : γ
  solnIncr : Bool
deriving DecidableEq

/-- The constraint capability consumed by the formulation:
`setFieldIncr(tStart, tEnd, incrField)` writes prescribed increments
into the increment field. -/
structure ConstraintOps (γ : Type) where
  setFieldIncr : γ → ℚ → ℚ → MeshField → MeshField

/-- The formulation's state: the named field buffers, the mesh size used
to lay out the lumped Jacobian (`VERTICES_FIELD`), whether the solver has
been initialized, and the integrator and constraint collections. -/
structure State (σ γ : Type) where
  dispT : MeshField
  dispTmdt : MeshField
  dispIncr : MeshField
  residual : MeshField
  jacobian : MeshField
  meshVertices : Nat
  solverInitialized : Bool
  integratorsMesh : List (Integrator σ)
  integratorsSubMesh : List (Integrator σ)
  constraints : List (Constraint γ)

variable {σ γ : Type}

/-- Modelled from the spec: `reformJacobianLumped` (called by
`_reformJacobian`, defined outside this file's sources) rebuilds the
lumped operator from all integrators' additive contributions. -/
def reformJacobianLumped (iops : IntegratorOps σ) (s : State σ γ) : State σ γ :=
  let assembled :=
    (s.integratorsMesh ++ s.integratorsSubMesh).foldl
      (fun j g => List.zipWith (· + ·) j (iops.jacobianContrib g.payload))
      (zeroField s.jacobian)
  { s with jacobian := assembled }

/-- Modelled from the spec: `_reformResidual` (defined on the parent
`Formulation`, outside this file's sources) rebuilds the residual as the
sum of all integrators' residual contributions, which read the current
and previous displacement fields. -/
def reformResidual (iops : IntegratorOps σ) (s : State σ γ) : MeshField :=
  (s.integratorsMesh ++ s.integratorsSubMesh).foldl
    (fun r g => List.zipWith (· + ·) r (iops.residualContrib g.payload s.dispT s.dispTmdt))
    (zeroField s.residual)

/-- Modelled from the spec: `SolverLumped.solve(dispIncr, jacobian,
residual)` solves `jacobian * increment = residual` for the diagonal
lumped operator, so the increment is the pointwise quotient
`residual / jacobian`. -/
def solveLumped (jacobian residual : MeshField) : MeshField :=
  List.zipWith (fun r j => r / j) residual jacobian

/-- Embedding of `ExplicitLumped.initialize` (the part after the parent
call): add `disp(t-dt)` with the layout copied from `dispIncr(t->t+dt)`
(fresh storage holding arbitrary `junk` until zeroed), zero `disp(t-dt)`,
`disp(t)` and `residual`, allocate the lumped Jacobian as a fresh
zero-filled vertex field with `dimension` degrees of freedom per vertex,
initialize the solver, and switch every constraint and integrator to
solve-for-increment mode. -/
def initializeFormulation (dimension : Nat) (junk : ℚ) (s : State σ γ) : State σ γ :=
  let dispTmdtNew := List.replicate s.dispIncr.length junk
  { s with
    dispTmdt := zeroField dispTmdtNew
    dispT := zeroField s.dispT
    residual := zeroField s.residual
    jacobian := List.replicate (dimension * s.meshVertices) 0
    solverInitialized := true
    constraints := s.constraints.map fun c => { c with solnIncr := true }
    integratorsMesh := s.integratorsMesh.map fun g => { g with solnIncr := true }
    integratorsSubMesh := s.integratorsSubMesh.map fun g => { g with solnIncr := true } }

/-- Embedding of `ExplicitLumped.prestep`: apply every constraint's
`setFieldIncr(t, t+dt, dispIncr)` to the increment field, advance every
integrator with `timeStep(dt)`, accumulate the `needNewJacobian()` flag
over the advanced integrators, and call `_reformJacobian` once when the
flag is set. The second component counts how many times `_reformJacobian`
ran. -/
def prestep (iops : IntegratorOps σ) (cops : ConstraintOps γ) (t dt : ℚ)
    (s : State σ γ) : State σ γ × Nat :=
  let dispIncrNew :=
    s.constraints.foldl (fun f c => cops.setFieldIncr c.payload t (t + dt) f) s.dispIncr
  let integsM := s.integratorsMesh.map fun g => { g with payload := iops.timeStep g.payload dt }
  let integsS := s.integratorsSubMesh.map fun g => { g with payload := iops.timeStep g.payload dt }
  let needNew :=
    (integsM ++ integsS).foldl (fun b g => b || iops.needNewJacobian g.payload) false
  let s1 := { s with
    dispIncr := dispIncrNew
    integratorsMesh := integsM
    integratorsSubMesh := integsS }
  if needNew then (reformJacobianLumped iops s1, 1) else (s1, 0)

/-- Embedding of `ExplicitLumped.step`: reform the residual, then solve
`jacobian * dispIncr = residual` into the increment field. -/
def step (iops : IntegratorOps σ) (_t _dt : ℚ) (s : State σ γ) : State σ γ :=
  let r := reformResidual iops s
  let s1 := { s with residual := r }
  { s1 with dispIncr := solveLumped s1.jacobian s1.residual }

/-- First commit phase of `ExplicitLumped.poststep`:
`dispTmdt.copy(dispT)`. -/
def commitPrevious (s : State σ γ) : State σ γ := { s with dispTmdt := s.dispT }

/-- Second commit phase of `ExplicitLumped.poststep`:
`dispT += dispIncr`, the in-place elementwise accumulate. -/
def commitCurrent (s : State σ γ) : State σ γ :=
  { s with dispT := List.zipWith (· + ·) s.dispT s.dispIncr }

/-- Third commit phase of `ExplicitLumped.poststep`: `dispIncr.zero()`. -/
def clearIncrement (s : State σ γ) : State σ γ :=
  { s with dispIncr := zeroField s.dispIncr }

/-- Embedding of `ExplicitLumped.poststep`: the three commit phases in
the source's order — copy current into previous, accumulate the solved
increment into current, zero the increment buffer. -/
def poststep (_t _dt : ℚ) (s : State σ γ) : State σ γ :=
  clearIncrement (commitCurrent (commitPrevious s))

/-- The poll the prestep loop performs: does some integrator (mesh or
submesh) report `needNewJacobian() == true` after its `timeStep(dt)`
call? -/
def staleAfterTimeStep (iops : IntegratorOps σ) (dt : ℚ) (s : State σ γ) : Bool :=
  (s.integratorsMesh ++ s.integratorsSubMesh).any fun g =>
    iops.needNewJacobian (iops.timeStep g.payload dt)

/-! ## Material A of the data generator, over the reals

The source derives `vpA = vsA*3**0.5`; claim C8 reads this over exact
arithmetic, so these constants live in `ℝ` (the square root makes the two
derived definitions noncomputable, everything else in the file is
computable). -/

/-- Material A density (`densityA = 2500.0`). -/
def densityA : ℝ := 2500

/-- Material A shear-wave speed (`vsA = 3000.0`). -/
def vsA : ℝ := 3000

/-- Material A dilatational-wave speed, `vpA = vsA*3**0.5`, read in exact
real arithmetic. -/
noncomputable def vpA : ℝ := vsA * Real.sqrt 3

/-- Material A shear modulus, `muA = vsA*vsA*densityA`. -/
def muA : ℝ := vsA * vsA * densityA

/-- Material A Lame parameter, `lambdaA = vpA*vpA*densityA - 2.0*muA`. -/
noncomputable def lambdaA : ℝ := vpA * vpA * densityA - 2 * muA

/-- Material A strain sample (`strainA = [1.1e-4, 1.2e-4, 1.4e-4]`). -/
def strainA : Vec3 ℝ := ⟨1.1e-4, 1.2e-4, 1.4e-4⟩

/-- Material A initial stress (`initialStressA = [2.1e4, 2.2e4, 2.4e4]`). -/
def initialStressA : Vec3 ℝ := ⟨2.1e4, 2.2e4, 2.4e4⟩

/-- Material A initial strain (`initialStrainA = [3.1e-5, 3.2e-5, 3.4e-5]`). -/
def initialStrainA : Vec3 ℝ := ⟨3.1e-5, 3.2e-5, 3.4e-5⟩

/-! ## Concrete sample instances for evaluating the theorems -/

/-- A two-dof sample formulation state over trivial integrator and
constraint payloads. -/
def sampleState : State Unit Unit where
  dispT := [1, 2]
  dispTmdt := [9, 9]
  dispIncr := [3, 4]
  residual := [0, 0]
  jacobian := [1, 1]
  meshVertices := 2
  solverInitialized := false
  integratorsMesh := [{ payload := (), solnIncr := false }]
  integratorsSubMesh := []
  constraints := [{ payload := (), solnIncr := false }]

/-- Sample integrator operations over a unit payload: the tangent is
never reported stale, and the Jacobian and residual contributions are the
constant nonzero fields `[5, 5]` and `[2, 2]`. -/
def quietIntegratorOps : IntegratorOps Unit where
  timeStep := fun u _ => u
  needNewJacobian := fun _ => false
  jacobianContrib := fun _ => [5, 5]
  residualContrib := fun _ _ _ => [2, 2]

/-- Sample constraint operations over a unit payload: the prescribed
increment writer leaves the increment field unchanged. -/
def quietConstraintOps : ConstraintOps Unit where
  setFieldIncr := fun _ _ _ f => f

/-! ## Helper lemmas -/

/-- `getD` distributes over the elementwise sum of two buffers on
in-range indices. -/
theorem zipWith_add_getD (as bs : List ℚ) (i : Nat) (ha : i < as.length)
    (hb : i < bs.length) :
    (List.zipWith (· + ·) as bs).getD i 0 = as.getD i 0 + bs.getD i 0 := by
  induction as generalizing bs i with
  | nil => simp at ha
  | cons a as ih =>
    cases bs with
    | nil => simp at hb
    | cons b bs =>
      cases i with
      | zero => simp
      | succ n =>
        simp only [List.zipWith_cons_cons, List.getD_cons_succ]
        exact ih bs n (by simpa using ha) (by simpa using hb)

/-- Every `getD`-read of a zeroed buffer (with default 0) is zero. -/
theorem zeroField_getD (f : MeshField) (i : Nat) : (zeroField f).getD i 0 = 0 := by
  induction f generalizing i with
  | nil => simp [zeroField]
  | cons a as ih =>
    cases i with
    | zero => simp [zeroField]
    | succ n => simp [zeroField]

/-- A zeroed buffer is the all-zero buffer of the same layout. -/
theorem zeroField_eq_replicate (f : MeshField) :
    zeroField f = List.replicate f.length 0 := by
  induction f with
  | nil => rfl
  | cons a as ih => simp [zeroField, List.replicate] at ih ⊢

/-- The boolean-or accumulation loop computes `any`. -/
theorem foldl_or_eq_any {α : Type} (p : α → Bool) (l : List α) (b : Bool) :
    l.foldl (fun acc g => acc || p g) b = (b || l.any p) := by
  induction l generalizing b with
  | nil => simp
  | cons x xs ih => simp [List.foldl, ih, Bool.or_assoc]

/-- Polling `needNewJacobian` over integrators whose payloads were just
advanced by `timeStep dt` is polling the advanced payloads over the
original integrators. -/
theorem any_needNew_map {σ : Type} (iops : IntegratorOps σ) (dt : ℚ)
    (l : List (Integrator σ)) :
    ((l.map fun g => Integrator.mk (iops.timeStep g.payload dt) g.solnIncr).any
        fun g => iops.needNewJacobian g.payload) =
      l.any fun g => iops.needNewJacobian (iops.timeStep g.payload dt) := by
  induction l with
  | nil => rfl
  | cons x xs ih => simp [ih]

/-! ## Claim theorems: Maxwell plane-strain material -/

/-- C3: for every strain, shear modulus `mu`, Lame parameter `lambda`,
initial stress and initial strain, `_calcStress` returns the symmetric
isotropic elastic-constants tensor with `C1111 = C2222 = lambda + 2*mu`,
`C1122 = lambda`, `C1212 = 2*mu`, `C1112 = C2212 = 0`, and a stress
vector equal to the matrix-vector product
`elasticConstants * (strain - initialStrain) + initialStress`. -/
theorem calcStress_isotropic_elasticity {K : Type} [LinearOrderedField K]
    (strainV : Vec3 K) (muV lambdaV : K) (s0 e0 : Vec3 K) :
    (calcStress strainV muV lambdaV s0 e0).1.c1111 = lambdaV + 2 * muV ∧
    (calcStress strainV muV lambdaV s0 e0).1.c2222 = lambdaV + 2 * muV ∧
    (calcStress strainV muV lambdaV s0 e0).1.c1122 = lambdaV ∧
    (calcStress strainV muV lambdaV s0 e0).1.c1212 = 2 * muV ∧
    (calcStress strainV muV lambdaV s0 e0).1.c1112 = 0 ∧
    (calcStress strainV muV lambdaV s0 e0).1.c2212 = 0 ∧
    (elasticMatrix (calcStress strainV muV lambdaV s0 e0).1).IsSymm ∧
    vecOf (calcStress strainV muV lambdaV s0 e0).2.1 =
      (elasticMatrix (calcStress strainV muV lambdaV s0 e0).1).mulVec
        (vecOf strainV - vecOf e0) + vecOf s0 := by
  refine ⟨rfl, rfl, rfl, rfl, rfl, rfl, ?_, ?_⟩
  · refine Matrix.IsSymm.ext fun i j => ?_
    fin_cases i <;> fin_cases j <;> simp [elasticMatrix, calcStress]
  · funext i
    fin_cases i <;>
      simp [calcStress, elasticMatrix, vecOf, Matrix.mulVec, Matrix.dotProduct,
        Fin.sum_univ_three] <;> ring

/-- C6: for two materials with Maxwell relaxation times
`tauA = viscosityA / muA` and `tauB = viscosityB / muB` (with
`mu = vs*vs*density` derived from the database values), the reported
admissible stable time step is `0.2 * min(tauA, tauB)`. -/
theorem dtStable_min_relaxation {K : Type} [LinearOrderedField K] (a b : MatDB K) :
    dtStableImplicit a b =
      (0.2 : K) * min (a.viscosity / (a.vs * a.vs * a.density))
        (b.viscosity / (b.vs * b.vs * b.density)) := rfl

/-- C7: the updated internal state returned by `_calcStress` is the
7-component concatenation of the total strain with the deviatoric
viscous-strain part `[exx - m, eyy - m, -m, exy]`, where
`m = (exx + eyy) / 3`. -/
theorem calcStress_stateVars_deviatoric {K : Type} [LinearOrderedField K]
    (strainV : Vec3 K) (muV lambdaV : K) (s0 e0 : Vec3 K) :
    (calcStress strainV muV lambdaV s0 e0).2.2 =
      [strainV.xx, strainV.yy, strainV.xy] ++
      [strainV.xx - (strainV.xx + strainV.yy) / 3,
       strainV.yy - (strainV.xx + strainV.yy) / 3,
       -((strainV.xx + strainV.yy) / 3),
       strainV.xy] := rfl

/-- C8: over exact arithmetic, material A (density 2500, vs 3000,
vp = vs * sqrt 3) has `mu = 2.25e10`, `lambda = mu`, and elastic
constants `C1111 = C2222 = 6.75e10`, `C1122 = 2.25e10`,
`C1212 = 4.5e10`, `C1112 = C2212 = 0`. -/
theorem materialA_exact_moduli_and_constants :
    muA = 2.25e10 ∧ lambdaA = muA ∧
    (calcStress strainA muA lambdaA initialStressA initialStrainA).1 =
      ⟨6.75e10, 2.25e10, 0, 6.75e10, 0, 4.5e10⟩ := by
  have hsq : Real.sqrt 3 * Real.sqrt 3 = 3 := Real.mul_self_sqrt (by norm_num)
  have hmu : muA = 2.25e10 := by norm_num [muA, vsA, densityA]
  have hvp : vpA * vpA = 27000000 := by
    have h : vpA * vpA = vsA * vsA * (Real.sqrt 3 * Real.sqrt 3) := by
      simp only [vpA]; ring
    rw [h, hsq]; norm_num [vsA]
  have hlam : lambdaA = 2.25e10 := by
    simp only [lambdaA]
    rw [hvp, hmu]
    norm_num [densityA]
  refine ⟨hmu, by rw [hlam, hmu], ?_⟩
  simp only [calcStress, ElasticConsts.mk.injEq]
  norm_num [hlam, hmu]

/-- C10: the (elastic constants, stress, updated state) triple returned
by the material derivation is independent of viscosity — two evaluations
differing only in viscosity return identical triples — and viscosity
enters only the reported relaxation time `viscosity / mu`. -/
theorem calcStress_viscosity_noninterference {K : Type} [LinearOrderedField K]
    (density vs vp v1 v2 : K) (strain s0 e0 : Vec3 K) :
    (materialResponse ⟨density, vs, vp, v1⟩ strain s0 e0).1 =
      (materialResponse ⟨density, vs, vp, v2⟩ strain s0 e0).1 ∧
    (materialResponse ⟨density, vs, vp, v1⟩ strain s0 e0).2 =
      v1 / (vs * vs * density) := ⟨rfl, rfl⟩

/-! ## Claim theorems: ExplicitLumped step protocol -/

/-- C1: poststep commits state by the three-phase sequence (previous :=
current; current += increment; increment := 0), so that afterwards,
pointwise over every degree of freedom, `dispT_new = dispT_old + incr`,
`dispTmdt_new = dispT_old`, and `dispIncr = 0`. -/
theorem poststep_generation_commit {σ γ : Type} (t dt : ℚ) (s : State σ γ)
    (h : s.dispIncr.length = s.dispT.length) :
    (∀ i, i < s.dispT.length →
      (poststep t dt s).dispT.getD i 0 = s.dispT.getD i 0 + s.dispIncr.getD i 0) ∧
    (poststep t dt s).dispTmdt = s.dispT ∧
    (∀ i, (poststep t dt s).dispIncr.getD i 0 = 0) ∧
    (poststep t dt s).dispIncr.length = s.dispIncr.length := by
  refine ⟨fun i hi => ?_, rfl, fun i => ?_, ?_⟩
  · exact zipWith_add_getD s.dispT s.dispIncr i hi (h ▸ hi)
  · exact zeroField_getD s.dispIncr i
  · simp [poststep, clearIncrement, commitCurrent, commitPrevious, zeroField]

/-- C1 witness: the commit theorem evaluated on the concrete two-dof
sample state. -/
theorem poststep_generation_commit_witness :
    sampleState.dispIncr.length = sampleState.dispT.length ∧
    ((∀ i, i < sampleState.dispT.length →
      (poststep 0 1 sampleState).dispT.getD i 0 =
        sampleState.dispT.getD i 0 + sampleState.dispIncr.getD i 0) ∧
    (poststep 0 1 sampleState).dispTmdt = sampleState.dispT ∧
    (∀ i, (poststep 0 1 sampleState).dispIncr.getD i 0 = 0) ∧
    (poststep 0 1 sampleState).dispIncr.length = sampleState.dispIncr.length) :=
  ⟨by decide, poststep_generation_commit 0 1 sampleState (by decide)⟩

/-- C2: prestep calls `_reformJacobian` exactly once when some integrator
reports `needNewJacobian() == true` after its `timeStep(dt)` call, and
not at all otherwise; when no integrator reports a stale tangent, the
lumped Jacobian buffer is unchanged by prestep. -/
theorem prestep_conditional_reform {σ γ : Type} (iops : IntegratorOps σ)
    (cops : ConstraintOps γ) (t dt : ℚ) (s : State σ γ) :
    ((prestep iops cops t dt s).2 =
      if staleAfterTimeStep iops dt s then 1 else 0) ∧
    (staleAfterTimeStep iops dt s = false →
      (prestep iops cops t dt s).1.jacobian = s.jacobian) := by
  constructor
  · simp only [prestep, foldl_or_eq_any, Bool.false_or, List.any_append,
      any_needNew_map, staleAfterTimeStep]
    split_ifs <;> rfl
  · intro hP
    simp only [staleAfterTimeStep, List.any_append] at hP
    simp only [prestep, foldl_or_eq_any, Bool.false_or, List.any_append,
      any_needNew_map, hP]
    simp

/-- C2 witness: the reform-policy theorem evaluated on the sample state
with integrator operations that never report a stale tangent. -/
theorem prestep_conditional_reform_witness :
    staleAfterTimeStep quietIntegratorOps 1 sampleState = false ∧
    (((prestep quietIntegratorOps quietConstraintOps 0 1 sampleState).2 =
      if staleAfterTimeStep quietIntegratorOps 1 sampleState then 1 else 0) ∧
    (staleAfterTimeStep quietIntegratorOps 1 sampleState = false →
      (prestep quietIntegratorOps quietConstraintOps 0 1 sampleState).1.jacobian =
        sampleState.jacobian)) :=
  ⟨by decide, prestep_conditional_reform quietIntegratorOps quietConstraintOps 0 1 sampleState⟩

/-- C4 counterexample: on a concrete state with a nonzero integrator
Jacobian contribution, initialize leaves the lumped Jacobian as the
freshly allocated zero field; the integrator-set assembly would produce
`[5, 5]`, so after initialize the Jacobian does not hold assembled
integrator contributions. -/
theorem initializeFormulation_no_assembly_cex :
    (initializeFormulation 1 7 sampleState).jacobian = [0, 0] ∧
    (reformJacobianLumped quietIntegratorOps
      (initializeFormulation 1 7 sampleState)).jacobian = [5, 5] ∧
    (initializeFormulation 1 7 sampleState).jacobian ≠
      (reformJacobianLumped quietIntegratorOps
        (initializeFormulation 1 7 sampleState)).jacobian := by
  have h1 : (initializeFormulation 1 7 sampleState).jacobian = [0, 0] := rfl
  have h2 : (reformJacobianLumped quietIntegratorOps
      (initializeFormulation 1 7 sampleState)).jacobian = [5, 5] := by
    norm_num [reformJacobianLumped, initializeFormulation, sampleState,
      quietIntegratorOps, zeroField, List.replicate_succ]
  refine ⟨h1, h2, ?_⟩
  rw [h1, h2]
  decide

/-- C4 (amended): initialize allocates the lumped Jacobian as fresh
zero-filled storage (`dimension` degrees of freedom per vertex) and then
initializes the solver with the field set and Jacobian; it does not
assemble integrator tangent contributions — the Jacobian is first
assembled by `_reformJacobian` during prestep when an integrator reports
`needNewJacobian()`. -/
theorem initializeFormulation_allocates_jacobian {σ γ : Type} (dimension : Nat)
    (junk : ℚ) (s : State σ γ) :
    (initializeFormulation dimension junk s).jacobian =
      List.replicate (dimension * s.meshVertices) 0 ∧
    (initializeFormulation dimension junk s).solverInitialized = true ∧
    (initializeFormulation dimension junk s).integratorsMesh =
      s.integratorsMesh.map (fun g => { g with solnIncr := true }) := ⟨rfl, rfl, rfl⟩

/-- C5: step mutates only the displacement-increment field (set by the
lumped solve on the Jacobian and the reformed residual) and the residual
field (set by the residual reform); the current and previous displacement
fields — and every other state component — are unchanged. -/
theorem step_mutates_only_incr_and_residual {σ γ : Type} (iops : IntegratorOps σ)
    (t dt : ℚ) (s : State σ γ) :
    (step iops t dt s).dispT = s.dispT ∧
    (step iops t dt s).dispTmdt = s.dispTmdt ∧
    (step iops t dt s).jacobian = s.jacobian ∧
    (step iops t dt s).meshVertices = s.meshVertices ∧
    (step iops t dt s).solverInitialized = s.solverInitialized ∧
    (step iops t dt s).integratorsMesh = s.integratorsMesh ∧
    (step iops t dt s).integratorsSubMesh = s.integratorsSubMesh ∧
    (step iops t dt s).constraints = s.constraints ∧
    (step iops t dt s).residual = reformResidual iops s ∧
    (step iops t dt s).dispIncr = solveLumped s.jacobian (reformResidual iops s) :=
  ⟨rfl, rfl, rfl, rfl, rfl, rfl, rfl, rfl, rfl, rfl⟩

/-- C9: after initialize, the previous-displacement field exists with the
layout copied from the displacement-increment field; previous
displacement, current displacement and residual all read as all-zero; and
every constraint and every integrator (mesh and submesh) is in
solve-for-increment mode. -/
theorem initializeFormulation_zeroed_and_solnIncr {σ γ : Type} (dimension : Nat)
    (junk : ℚ) (s : State σ γ) :
    (initializeFormulation dimension junk s).dispTmdt.length = s.dispIncr.length ∧
    (initializeFormulation dimension junk s).dispTmdt =
      List.replicate s.dispIncr.length 0 ∧
    (initializeFormulation dimension junk s).dispT =
      List.replicate s.dispT.length 0 ∧
    (initializeFormulation dimension junk s).residual =
      List.replicate s.residual.length 0 ∧
    ((initializeFormulation dimension junk s).constraints.all fun c => c.solnIncr) = true ∧
    (((initializeFormulation dimension junk s).integratorsMesh ++
        (initializeFormulation dimension junk s).integratorsSubMesh).all
          fun g => g.solnIncr) = true := by
  refine ⟨?_, ?_, ?_, ?_, ?_, ?_⟩
  · simp [initializeFormulation, zeroField]
  · simp [initializeFormulation, zeroField_eq_replicate]
  · simp [initializeFormulation, zeroField_eq_replicate]
  · simp [initializeFormulation, zeroField_eq_replicate]
  · simp [initializeFormulation, List.all_eq_true]
  · simp [initializeFormulation, List.all_eq_true]

end Pylith
